import Mathlib

/-!
Verification of the Overture_lists relational persistence layer
(`src/database_storage.py`, `src/crm_mapping_storage.py`) and of the
Overture division query engine (`src/query_engine.py`) against the
natural-language specification.

SQLite tables are embedded as Lean lists of row structures kept in
insertion (rowid) order; each mutating Python method becomes a function
from the database state to a pair of an `Except`-style outcome and the
post-state (a raised-and-rolled-back exception leaves the state as it
was, matching the SQLite transaction discipline used by the code).
-/

namespace Overture

/-- Outcome of a storage call: Python either returns normally or raises. -/
inductive DBError where
  | valueError (msg : String)
  | integrityError (msg : String)
deriving DecidableEq, Repr

/-- A row of the `divisions` table (`schema.sql` column list as used by
`database_storage.py`: id, system_id, name, subtype, country, geometry_json). -/
structure DivisionRow where
  id : Nat
  system_id : String
  name : String
  subtype : String
  country : String
  geometry_json : String
deriving DecidableEq, Repr

/-- A list item identifier as passed to `create_list` /
`update_list_items` (`item_ids: List[Union[int, str]]`): a division id
(int) or a CRM client `system_id` (str). -/
abbrev ItemId := Sum Nat String

/-- A row of the `lists` table (timestamp columns are not modelled). -/
structure ListRow where
  id : Nat
  name : String
  type : String
  notes : String
  hash : String
deriving DecidableEq, Repr

/-- A row of the `list_divisions` junction table. -/
structure ListDivisionRow where
  list_id : Nat
  division_id : ItemId
deriving DecidableEq, Repr

/-- A row of the `list_clients` junction table. -/
structure ListClientRow where
  list_id : Nat
  system_id : ItemId
deriving DecidableEq, Repr

/-- A row of the `crm_mappings` table used by `DatabaseStorage`. -/
structure CrmMappingRow where
  system_id : String
  division_id : Nat
  account_name : String
  custom_admin_level : Option String
  division_name : Option String
  overture_subtype : Option String
  country : Option String
  geometry_json : Option String
deriving DecidableEq, Repr

/-- A row of the `relationships` table. -/
structure RelationshipRow where
  parent_division_id : Nat
  child_division_id : Nat
  relationship_type : String
deriving DecidableEq, Repr

/-- The state of the unified SQLite database owned by `DatabaseStorage`:
one list of rows per table, in rowid (insertion) order. -/
structure DB where
  divisions : List DivisionRow
  lists : List ListRow
  list_divisions : List ListDivisionRow
  list_clients : List ListClientRow
  crm_mappings : List CrmMappingRow
  relationships : List RelationshipRow
deriving DecidableEq, Repr

namespace DB

/-- The empty database (all tables freshly created by `_init_db`). -/
def empty : DB := ⟨[], [], [], [], [], []⟩

/-- SQLite rowid assignment for an insert into `divisions`
(`cursor.lastrowid`): one more than the largest existing id. -/
def nextDivisionId (db : DB) : Nat :=
  (db.divisions.map (·.id)).foldr max 0 + 1

/-- SQLite rowid assignment for an insert into `lists`. -/
def nextListId (db : DB) : Nat :=
  (db.lists.map (·.id)).foldr max 0 + 1

/-- `DatabaseStorage.get_division_by_system_id`: `SELECT * FROM divisions
WHERE system_id = ?` with `fetch_one` (first matching row in rowid order). -/
def get_division_by_system_id (db : DB) (system_id : String) : Option DivisionRow :=
  db.divisions.find? (fun d => d.system_id = system_id)

/-- `DatabaseStorage.save_division`: if a row with this `system_id` is
already cached, return its id and leave the table untouched; otherwise
insert a new row and return its rowid. -/
def save_division (db : DB) (system_id name subtype country geometry_json : String) :
    Nat × DB :=
  match db.get_division_by_system_id system_id with
  | some existing => (existing.id, db)
  | none =>
      let nid := db.nextDivisionId
      (nid, { db with divisions :=
        db.divisions ++ [⟨nid, system_id, name, subtype, country, geometry_json⟩] })

/-- `DatabaseStorage._compute_hash`: the code hashes the string
`f"{name}|{list_type}"` with MD5; MD5 is modelled as the identity on the
hashed content (injective in intent), so the hash value is the content
string itself. -/
def compute_hash (name list_type : String) : String :=
  name ++ "|" ++ list_type

/-- `DatabaseStorage.check_duplicate_list`: `SELECT id FROM lists WHERE
hash = ?`, first match. -/
def check_duplicate_list (db : DB) (hash_val : String) : Option Nat :=
  (db.lists.find? (fun l => l.hash = hash_val)).map (·.id)

/-- `DatabaseStorage.get_list`: `SELECT * FROM lists WHERE id = ?`. -/
def get_list (db : DB) (list_id : Nat) : Option ListRow :=
  db.lists.find? (fun l => l.id = list_id)

/-- `DatabaseStorage.create_list`: reject empty item lists, invalid
types, and name+type hash duplicates (naming the colliding id in the
raised `ValueError`; the model drops the quote characters of the Python
message but keeps its data); otherwise insert the list row and its items
into the junction table matching the list type. -/
def create_list (db : DB) (name list_type : String) (item_ids : List ItemId)
    (notes : String) : Except DBError Nat × DB :=
  if item_ids = [] then
    (.error (.valueError "List must contain at least one item"), db)
  else if ¬ (list_type = "division" ∨ list_type = "client") then
    (.error (.valueError "list_type must be division or client"), db)
  else
    let hash_val := compute_hash name list_type
    match db.check_duplicate_list hash_val with
    | some existing =>
        (.error (.valueError ("List " ++ name ++ " of type " ++ list_type ++
          " already exists (ID: " ++ toString existing ++ ")")), db)
    | none =>
        let list_id := db.nextListId
        let newRow : ListRow := ⟨list_id, name, list_type, notes, hash_val⟩
        let db1 : DB := { db with lists := db.lists ++ [newRow] }
        if list_type = "division" then
          let newItems : List ListDivisionRow := item_ids.map (fun i => ⟨list_id, i⟩)
          (.ok list_id, { db1 with list_divisions := db1.list_divisions ++ newItems })
        else
          let newItems : List ListClientRow := item_ids.map (fun i => ⟨list_id, i⟩)
          (.ok list_id, { db1 with list_clients := db1.list_clients ++ newItems })

/-- `DatabaseStorage.get_list_items`: for a division list, the join
`SELECT d.* FROM divisions d JOIN list_divisions ld ON d.id =
ld.division_id WHERE ld.list_id = ?`, modelled as a scan of the
`list_divisions` rows selected by `list_id` (the indexed driving table)
each resolved against `divisions`; for a client list, the stored
`system_id` values; `[]` when the list does not exist.  Division rows
are tagged `.inl`, client ids `.inr`. -/
def get_list_items (db : DB) (list_id : Nat) : List (Sum DivisionRow ItemId) :=
  match db.get_list list_id with
  | none => []
  | some list_data =>
      if list_data.type = "division" then
        (db.list_divisions.filter (fun ld => ld.list_id = list_id)).filterMap
          (fun ld => (db.divisions.find? (fun d => Sum.inl d.id = ld.division_id)).map Sum.inl)
      else
        (db.list_clients.filter (fun lc => lc.list_id = list_id)).map
          (fun lc => Sum.inr lc.system_id)

/-- `DatabaseStorage.update_list_items`: reject empty item lists and
unknown lists; otherwise delete every junction row of the list and
insert the new items in order (the `updated_at` touch is not modelled). -/
def update_list_items (db : DB) (list_id : Nat) (item_ids : List ItemId) :
    Except DBError Unit × DB :=
  if item_ids = [] then
    (.error (.valueError "List must contain at least one item"), db)
  else
    match db.get_list list_id with
    | none => (.error (.valueError ("List " ++ toString list_id ++ " not found")), db)
    | some list_data =>
        if list_data.type = "division" then
          let newItems : List ListDivisionRow := item_ids.map (fun i => ⟨list_id, i⟩)
          let kept := db.list_divisions.filter (fun ld => ¬ ld.list_id = list_id)
          (.ok (), { db with list_divisions := kept ++ newItems })
        else
          let newItems : List ListClientRow := item_ids.map (fun i => ⟨list_id, i⟩)
          let kept := db.list_clients.filter (fun lc => ¬ lc.list_id = list_id)
          (.ok (), { db with list_clients := kept ++ newItems })

/-- `DatabaseStorage.save_mapping`: `INSERT INTO crm_mappings ... ON
CONFLICT(system_id) DO UPDATE SET ...`.  Modelled from the spec: the
`crm_mappings` table definition lives in `src/sql/schema.sql`, which is
absent from the sources; per spec §3 both `system_id` and the referenced
Division are unique across mappings, so the table carries UNIQUE
constraints on both columns.  An insert or conflict-update that would
leave two rows sharing a `division_id` raises `IntegrityError` and rolls
back; a `system_id` conflict otherwise updates the existing row in
place. -/
def save_mapping (db : DB) (system_id : String) (division_id : Nat)
    (account_name : String) (custom_admin_level division_name overture_subtype
    country geometry_json : Option String) : Except DBError Unit × DB :=
  let row : CrmMappingRow :=
    ⟨system_id, division_id, account_name, custom_admin_level,
     division_name, overture_subtype, country, geometry_json⟩
  match db.crm_mappings.find? (fun m => m.system_id = system_id) with
  | some _ =>
      if db.crm_mappings.any
          (fun m => ¬ m.system_id = system_id ∧ m.division_id = division_id) then
        (.error (.integrityError "UNIQUE constraint failed: crm_mappings.division_id"), db)
      else
        (.ok (), { db with crm_mappings :=
          db.crm_mappings.map (fun m => if m.system_id = system_id then row else m) })
  | none =>
      if db.crm_mappings.any (fun m => m.division_id = division_id) then
        (.error (.integrityError "UNIQUE constraint failed: crm_mappings.division_id"), db)
      else
        (.ok (), { db with crm_mappings := db.crm_mappings ++ [row] })

/-- `DatabaseStorage.add_relationship`: reject self-relationships before
touching the table, then `INSERT OR IGNORE` the edge (duplicate
`(parent, child, type)` triples are silently skipped). -/
def add_relationship (db : DB) (parent_division_id child_division_id : Nat)
    (relationship_type : String) : Except DBError Unit × DB :=
  if parent_division_id = child_division_id then
    (.error (.valueError "Parent and child division cannot be the same"), db)
  else
    let row : RelationshipRow :=
      ⟨parent_division_id, child_division_id, relationship_type⟩
    if db.relationships.any (fun r => r = row) then
      (.ok (), db)
    else
      (.ok (), { db with relationships := db.relationships ++ [row] })

/-- The relationship rows with parent `p` and type `t`, projected to the
child id — the `relationships` scan shared by both arms of the recursive
CTE in `get_organizational_descendants`. -/
def orgChildren (rels : List RelationshipRow) (t : String) (p : Nat) : List Nat :=
  (rels.filter (fun r => r.parent_division_id = p ∧ r.relationship_type = t)).map
    (·.child_division_id)

/-- The `(division_id, depth)` rows the recursive CTE of
`get_organizational_descendants` produces at generation `n`: generation
0 is the base case (direct children, depth 1); generation `n+1` joins
`relationships` against the generation-`n` rows whose `depth <
depth_limit`. -/
def cteFrontier (rels : List RelationshipRow) (t : String) (limit : Int) (root : Nat) :
    Nat → List (Nat × Int)
  | 0 => (orgChildren rels t root).map (fun c => (c, 1))
  | n + 1 =>
      ((cteFrontier rels t limit root n).filter (fun od => od.2 < limit)).flatMap
        (fun od => (orgChildren rels t od.1).map (fun c => (c, od.2 + 1)))

/-- `DatabaseStorage.get_organizational_descendants`: the recursive CTE
with `depth_limit = 999 if max_depth is None else max_depth`, then
`SELECT DISTINCT division_id`.  Rows only exist at generations up to
`depth_limit` (the `od.depth < depth_limit` guard), so collecting
`depth_limit.toNat + 1` generations collects every row the CTE can
produce. -/
def get_organizational_descendants (db : DB) (division_id : Nat)
    (relationship_type : String) (max_depth : Option Int) : List Nat :=
  let depth_limit : Int := max_depth.getD 999
  let allRows := (List.range (depth_limit.toNat + 1)).flatMap
    (cteFrontier db.relationships relationship_type depth_limit division_id)
  (allRows.map Prod.fst).dedup

end DB

/-- There is a path of exactly `k` edges of relationship type `t` from
`p` to the given node in the edge list `rels` (so `k ≥ 1` always). -/
inductive ReachesIn (rels : List RelationshipRow) (t : String) (p : Nat) :
    Nat → Nat → Prop where
  | direct {r : RelationshipRow} (hr : r ∈ rels) (hp : r.parent_division_id = p)
      (ht : r.relationship_type = t) : ReachesIn rels t p r.child_division_id 1
  | step {q k : Nat} {r : RelationshipRow} (hq : ReachesIn rels t p q k)
      (hr : r ∈ rels) (hp : r.parent_division_id = q) (ht : r.relationship_type = t) :
      ReachesIn rels t p r.child_division_id (k + 1)

/-- A row of the `mappings` table of `crm_mapping_storage.py`, whose
schema is created in `CRMMappingStorage._init_database`: `system_id TEXT
NOT NULL UNIQUE` and `division_id TEXT NOT NULL UNIQUE` (the 1:1
constraint), `overture_subtype` and `geometry` nullable. -/
structure MappingRow where
  system_id : String
  account_name : String
  custom_admin_level : String
  division_id : String
  division_name : String
  overture_subtype : Option String
  country : String
  geometry : Option String
deriving DecidableEq, Repr

/-- The state of the standalone `crm_mappings.db` database owned by
`CRMMappingStorage`. -/
structure CrmDB where
  mappings : List MappingRow
deriving DecidableEq, Repr

/-- `CRMMappingStorage.add_mapping`: a plain `INSERT` into `mappings`;
SQLite raises `IntegrityError` when the new row collides with an
existing one on either UNIQUE column, the method rolls back and
re-raises, so the table is unchanged on failure. -/
def CrmDB.add_mapping (db : CrmDB) (system_id account_name custom_admin_level
    division_id division_name overture_subtype country : String)
    (geometry : Option String) : Except DBError Bool × CrmDB :=
  if db.mappings.any (fun m => m.system_id = system_id ∨ m.division_id = division_id) then
    (.error (.integrityError "UNIQUE constraint failed: mappings"), db)
  else
    (.ok true, ⟨db.mappings ++ [⟨system_id, account_name, custom_admin_level,
      division_id, division_name, some overture_subtype, country, geometry⟩]⟩)

/-! ### The Overture division query engine (`query_engine.py`) -/

/-- One record of the external Overture divisions Parquet dataset, with
the columns the engine queries (`names.primary` flattened to `name`,
the `class` column called `cls`). -/
structure ParquetRow where
  id : String
  name : String
  subtype : Option String
  country : Option String
  parent_division_id : Option String
  cls : String
deriving DecidableEq, Repr

/-- The external dataset as seen through `read_parquet`: its rows on
success, or the exception DuckDB raises when the source is unreachable
or malformed. -/
abbrev Dataset := Except String (List ParquetRow)

/-- The projected columns the division queries of the engine return. -/
structure ResultRow where
  division_id : String
  name : String
  subtype : Option String
  country : Option String
  parent_division_id : Option String
deriving DecidableEq, Repr

/-- `SELECT id as division_id, names.primary as name, subtype, country,
parent_division_id`. -/
def ParquetRow.toResult (r : ParquetRow) : ResultRow :=
  ⟨r.id, r.name, r.subtype, r.country, r.parent_division_id⟩

/-- `ORDER BY name` (ascending) over result rows. -/
def sortByName (l : List ResultRow) : List ResultRow :=
  l.insertionSort (fun a b => a.name ≤ b.name)

/-- `ORDER BY` over a string column. -/
def sortStrings (l : List String) : List String :=
  l.insertionSort (fun a b => a ≤ b)

/-- `OvertureQueryEngine.get_countries`: distinct non-null countries,
sorted; on a dataset failure the exception is caught, reported to the
UI via `st.error`, and the empty list is returned. -/
def get_countries (ds : Dataset) : List String :=
  match ds with
  | .error _ => []
  | .ok rows => sortStrings (rows.filterMap (·.country)).dedup

/-- `OvertureQueryEngine.get_subtypes`: distinct non-null subtypes of
land rows of one country, sorted; `[]` on a dataset failure. -/
def get_subtypes (ds : Dataset) (country : String) : List String :=
  match ds with
  | .error _ => []
  | .ok rows =>
      sortStrings
        ((rows.filter (fun r => r.country = some country ∧ r.cls = "land")).filterMap
          (·.subtype)).dedup

/-- `OvertureQueryEngine.get_top_level_divisions`: land rows of the
country with no parent, ordered by name, `LIMIT 1000`; an empty frame on
a dataset failure. -/
def get_top_level_divisions (ds : Dataset) (country : String) : List ResultRow :=
  match ds with
  | .error _ => []
  | .ok rows =>
      (sortByName ((rows.filter (fun r =>
        r.country = some country ∧ r.cls = "land" ∧ r.parent_division_id = none)).map
          ParquetRow.toResult)).take 1000

/-- `OvertureQueryEngine.get_child_divisions`: land rows whose
`parent_division_id` equals the argument, ordered by name, `LIMIT 1000`;
an empty frame on a dataset failure. -/
def get_child_divisions (ds : Dataset) (parent_division_id : String) : List ResultRow :=
  match ds with
  | .error _ => []
  | .ok rows =>
      (sortByName ((rows.filter (fun r =>
        r.parent_division_id = some parent_division_id ∧ r.cls = "land")).map
          ParquetRow.toResult)).take 1000

/-- `OvertureQueryEngine.get_all_divisions_by_filters`: with an empty
path it falls back to `get_top_level_divisions`; otherwise it queries
the land rows whose parent is the last (most specific) id of the path,
ordered by name (no LIMIT in this query); an empty frame on a dataset
failure. -/
def get_all_divisions_by_filters (ds : Dataset) (country : String)
    (division_ids : List String) : List ResultRow :=
  match division_ids.getLast? with
  | none => get_top_level_divisions ds country
  | some last =>
      match ds with
      | .error _ => []
      | .ok rows =>
          sortByName ((rows.filter (fun r =>
            r.parent_division_id = some last ∧ r.cls = "land")).map
              ParquetRow.toResult)

/-- The state of an `OvertureQueryEngine` object: the contents of the
dataset behind `parquet_path`, plus the per-session hierarchical
selection state initialised in `__init__` (`self.country = None`,
`self.selection_path = []`). -/
structure Engine where
  parquet : Dataset
  country : Option String
  selection_path : List ResultRow
deriving Repr

namespace Engine

/-- Method view of `get_countries` (reads only the dataset). -/
def get_countries (e : Engine) : List String :=
  Overture.get_countries e.parquet

/-- Method view of `get_subtypes`. -/
def get_subtypes (e : Engine) (country : String) : List String :=
  Overture.get_subtypes e.parquet country

/-- Method view of `get_top_level_divisions`. -/
def get_top_level_divisions (e : Engine) (country : String) : List ResultRow :=
  Overture.get_top_level_divisions e.parquet country

/-- Method view of `get_child_divisions`. -/
def get_child_divisions (e : Engine) (parent_division_id : String) : List ResultRow :=
  Overture.get_child_divisions e.parquet parent_division_id

/-- Method view of `get_all_divisions_by_filters`. -/
def get_all_divisions_by_filters (e : Engine) (country : String)
    (division_ids : List String) : List ResultRow :=
  Overture.get_all_divisions_by_filters e.parquet country division_ids

/-- `OvertureQueryEngine.add_to_path`: appends to the session selection
path. -/
def add_to_path (e : Engine) (division : ResultRow) : Engine :=
  { e with selection_path := e.selection_path ++ [division] }

/-- `OvertureQueryEngine.set_country`: switching country resets the
selection path. -/
def set_country (e : Engine) (country : String) : Engine :=
  if e.country ≠ some country then
    { e with country := some country, selection_path := [] }
  else e

/-- `OvertureQueryEngine.query_at_current_level`: an empty frame without
a session country; else the top-level divisions of the session country,
or the children of the last division of the session selection path. -/
def query_at_current_level (e : Engine) : List ResultRow :=
  match e.country with
  | none => []
  | some c =>
      match e.selection_path.getLast? with
      | none => Overture.get_top_level_divisions e.parquet c
      | some last => Overture.get_child_divisions e.parquet last.division_id

end Engine

/-! ### Generic list lemmas -/

theorem find?_append_none {α : Type} (p : α → Bool) :
    ∀ (l₁ : List α), l₁.find? p = none → ∀ l₂, (l₁ ++ l₂).find? p = l₂.find? p := by
  intro l₁
  induction l₁ with
  | nil => intro _ l₂; rfl
  | cons a l ih =>
      intro h l₂
      cases hpa : p a with
      | true => simp [List.find?_cons_of_pos _ hpa] at h
      | false =>
          rw [List.find?_cons_of_neg _ (by simp [hpa])] at h
          rw [List.cons_append, List.find?_cons_of_neg _ (by simp [hpa])]
          exact ih h l₂

theorem find?_key_unique {α β : Type} [DecidableEq β] (f : α → β) (s : β) :
    ∀ (l : List α) (x : α), (l.map f).Nodup → x ∈ l → f x = s →
      l.find? (fun y => f y = s) = some x := by
  intro l
  induction l with
  | nil => intro x _ hx; cases hx
  | cons a l ih =>
      intro x hnd hx hs
      rw [List.map_cons, List.nodup_cons] at hnd
      rcases List.mem_cons.mp hx with rfl | hmem
      · exact List.find?_cons_of_pos _ (by simpa using hs)
      · have hne : ¬ (f a = s) := by
          intro hfa
          exact hnd.1 (hfa ▸ hs ▸ List.mem_map_of_mem f hmem)
        rw [List.find?_cons_of_neg _ (by simpa using hne)]
        exact ih x hnd.2 hmem hs

theorem filter_key_length_one {α β : Type} [DecidableEq β] (f : α → β) (s : β) :
    ∀ (l : List α), (l.map f).Nodup → (∃ x ∈ l, f x = s) →
      (l.filter (fun y => f y = s)).length = 1 := by
  intro l
  induction l with
  | nil => rintro _ ⟨x, hx, _⟩; cases hx
  | cons a l ih =>
      rintro hnd ⟨x, hx, hs⟩
      rw [List.map_cons, List.nodup_cons] at hnd
      by_cases hfa : f a = s
      · rw [List.filter_cons_of_pos (by simpa using hfa)]
        have : l.filter (fun y => f y = s) = [] := by
          rw [List.filter_eq_nil_iff]
          intro y hy hpy
          exact hnd.1 (by
            have : f y = s := by simpa using hpy
            exact (hfa.trans this.symm) ▸ List.mem_map_of_mem f hy)
        simp [this]
      · rw [List.filter_cons_of_neg (by simpa using hfa)]
        rcases List.mem_cons.mp hx with rfl | hmem
        · exact absurd hs hfa
        · exact ih hnd.2 ⟨x, hmem, hs⟩

theorem find?_congr_pred {α : Type} (p q : α → Bool) (h : ∀ a, p a = q a) :
    ∀ l : List α, l.find? p = l.find? q := by
  intro l
  induction l with
  | nil => rfl
  | cons a l ih =>
      cases hq : q a with
      | true =>
          rw [List.find?_cons_of_pos _ ((h a).trans hq),
            List.find?_cons_of_pos _ hq]
      | false =>
          rw [List.find?_cons_of_neg _ (by simp [h a, hq]),
            List.find?_cons_of_neg _ (by simp [hq]), ih]

/-! ### C7: self-relationships are rejected -/

/-- **C7**: for every database state, division id `A` and relationship
type, `add_relationship(A, A, type)` fails with the self-relationship
`ValueError` raised before any SQL executes, and the whole database — in
particular the `relationships` table — is returned unchanged. -/
theorem addRelationship_self_loop_rejected (db : DB) (a : Nat) (t : String) :
    db.add_relationship a a t =
      (.error (.valueError "Parent and child division cannot be the same"), db) := by
  simp [DB.add_relationship]

/-! ### C6 / C10: idempotent division caching -/

/-- **C10**: re-caching an already-cached external identifier with
different name, subtype, country or geometry returns the existing local
id and leaves the database — in particular every field of the stored
division row — completely unchanged: `save_division` performs no
descriptive-field refresh. -/
theorem saveDivision_no_field_refresh (db : DB) (sid n st c g : String)
    (r : DivisionRow) (h : db.get_division_by_system_id sid = some r) :
    db.save_division sid n st c g = (r.id, db) := by
  simp [DB.save_division, h]

/-- Concrete database for the division-cache witnesses: one cached
division row. -/
def dbDiv : DB :=
  { DB.empty with divisions := [⟨1, "sysA", "Alpha", "region", "US", "geoA"⟩] }

/-- Witness for **C10**: re-caching `sysA` with entirely different
descriptive fields returns local id 1 and the untouched database. -/
theorem saveDivision_no_field_refresh_witness :
    dbDiv.save_division "sysA" "Beta" "county" "FR" "geoB" = (1, dbDiv) :=
  saveDivision_no_field_refresh dbDiv "sysA" "Beta" "county" "FR" "geoB"
    ⟨1, "sysA", "Alpha", "region", "US", "geoA"⟩ (by decide)

/-- **C6**: under the schema uniqueness of `divisions.system_id`
(modelled as the `Nodup` hypothesis; the `schema.sql` file itself is not
part of the sources), calling `save_division` twice with the same
external identifier returns the same local identifier both times, and
afterwards exactly one division row carries that identifier. -/
theorem saveDivision_idempotent (db : DB) (sid n1 st1 c1 g1 n2 st2 c2 g2 : String)
    (h : (db.divisions.map (fun d => d.system_id)).Nodup) :
    (db.save_division sid n1 st1 c1 g1).1 =
      ((db.save_division sid n1 st1 c1 g1).2.save_division sid n2 st2 c2 g2).1 ∧
    (((db.save_division sid n1 st1 c1 g1).2.save_division sid n2 st2 c2 g2).2.divisions.filter
      (fun d => d.system_id = sid)).length = 1 := by
  cases hfind : db.get_division_by_system_id sid with
  | some r =>
      have hmem := List.mem_of_find?_eq_some hfind
      have hr : r.system_id = sid := by
        have := List.find?_some hfind
        simpa using this
      constructor
      · simp [DB.save_division, hfind]
      · simp only [DB.save_division, hfind]
        exact filter_key_length_one (fun d => d.system_id) sid db.divisions h
          ⟨r, hmem, hr⟩
  | none =>
      have hnone : db.divisions.find? (fun d => d.system_id = sid) = none := hfind
      have hnotin : ∀ x ∈ db.divisions, ¬ (x.system_id = sid) := by
        intro x hx
        have := List.find?_eq_none.mp hnone x hx
        simpa using this
      constructor
      · simp only [DB.save_division, hfind]
        simp only [DB.get_division_by_system_id]
        rw [find?_append_none _ _ hnone]
        simp [List.find?_cons_of_pos]
      · simp only [DB.save_division, hfind]
        simp only [DB.get_division_by_system_id]
        rw [find?_append_none _ _ hnone]
        rw [List.find?_cons_of_pos _ (by simp)]
        simp only [List.filter_append]
        rw [List.filter_eq_nil_iff.mpr (by
          intro y hy
          simpa using hnotin y hy)]
        simp

/-- Witness for **C6**: caching `sysB` twice in the empty database
returns local id 1 both times and leaves a single row for `sysB`. -/
theorem saveDivision_idempotent_witness :
    (DB.empty.save_division "sysB" "Beta" "region" "FR" "g1").1 =
      ((DB.empty.save_division "sysB" "Beta" "region" "FR" "g1").2.save_division
        "sysB" "Gamma" "county" "DE" "g2").1 ∧
    (((DB.empty.save_division "sysB" "Beta" "region" "FR" "g1").2.save_division
      "sysB" "Gamma" "county" "DE" "g2").2.divisions.filter
        (fun d => d.system_id = "sysB")).length = 1 :=
  saveDivision_idempotent DB.empty "sysB" "Beta" "region" "FR" "g1" "Gamma" "county"
    "DE" "g2" (by decide)

/-! ### C4: duplicate list creation is rejected -/

/-- **C4**: in a database whose `hash` column is consistent with
`_compute_hash` (the only writer of that column) and unique across list
rows (the dedup scheme; the `schema.sql` file is absent from the
sources, so uniqueness is modelled from the spec), a second attempt to
create a list with the name and type of an existing list `L` fails with
the duplicate `ValueError` naming `L.id`, and the database — hence the
number of list rows — is unchanged. -/
theorem createList_duplicate_rejected (db : DB) (name lt notes : String)
    (item_ids : List ItemId) (L : ListRow)
    (hinv : ∀ l ∈ db.lists, l.hash = DB.compute_hash l.name l.type)
    (huniq : (db.lists.map (fun l => l.hash)).Nodup)
    (hL : L ∈ db.lists) (hname : L.name = name) (htype : L.type = lt)
    (hne : item_ids ≠ []) (hlt : lt = "division" ∨ lt = "client") :
    db.create_list name lt item_ids notes =
      (.error (.valueError ("List " ++ name ++ " of type " ++ lt ++
        " already exists (ID: " ++ toString L.id ++ ")")), db) := by
  have hhash : L.hash = DB.compute_hash name lt := by
    rw [hinv L hL, hname, htype]
  have hfind : db.lists.find? (fun l => l.hash = DB.compute_hash name lt) = some L :=
    find?_key_unique (fun l => l.hash) (DB.compute_hash name lt) db.lists L huniq hL hhash
  rcases hlt with rfl | rfl <;>
    simp [DB.create_list, hne, DB.check_duplicate_list, hfind]

/-- Concrete database for the list witnesses: one cached division, one
division list named `West`. -/
def dbList : DB :=
  { DB.empty with
    divisions := [⟨1, "d1", "D1", "region", "US", "g"⟩],
    lists := [⟨1, "West", "division", "", "West|division"⟩],
    list_divisions := [⟨1, Sum.inl 1⟩] }

/-- Witness for **C4**: re-creating the `West` division list fails,
names the existing id 1, and leaves the store unchanged. -/
theorem createList_duplicate_rejected_witness :
    dbList.create_list "West" "division" [Sum.inl 1] "more" =
      (.error (.valueError ("List " ++ "West" ++ " of type " ++ "division" ++
        " already exists (ID: " ++ toString (1 : Nat) ++ ")")), dbList) :=
  createList_duplicate_rejected dbList "West" "division" "more" [Sum.inl 1]
    ⟨1, "West", "division", "", "West|division"⟩ (by decide) (by decide) (by decide)
    rfl rfl (by decide) (Or.inl rfl)

/-! ### C1: the one-to-one mapping constraint -/

/-- Store state for **C1**: divisions 1 and 2 cached, one CRM mapping
linking system id `X` to division 1. -/
def dbMap : DB :=
  { DB.empty with
    divisions := [⟨1, "d1", "Alpha", "region", "US", "g"⟩,
                  ⟨2, "d2", "Beta", "region", "US", "g"⟩],
    crm_mappings := [⟨"X", 1, "Acme", none, none, none, none, none⟩] }

/-- **C1** (divergence evidence): with the mapping `(X ↦ division 1)` in
the store, `DatabaseStorage.save_mapping("X", division 2, ...)` does not
fail: its `ON CONFLICT(system_id) DO UPDATE` clause silently rewrites
the original row to point at division 2.  The spec (§8) and the
repository's own test `test_system_id_uniqueness` require this call to
raise a uniqueness violation and leave the original row unmodified. -/
theorem saveMapping_upserts_on_system_id_reuse :
    dbMap.save_mapping "X" 2 "Other" none none none none none =
      (.ok (), { dbMap with
        crm_mappings := [⟨"X", 2, "Other", none, none, none, none, none⟩] }) := by
  rfl

/-- One-row `CRMMappingStorage` store backing the comparison below. -/
def crmDB1 : CrmDB := ⟨[⟨"X", "Acme", "L1", "divA", "A", some "region", "US", none⟩]⟩

/-- By contrast, the standalone `CRMMappingStorage.add_mapping` (whose
schema, with both UNIQUE columns, is in the sources) enforces both
directions of the one-to-one constraint: reusing the system id or the
division raises `IntegrityError` and leaves the single original row
unchanged. -/
theorem addMapping_enforces_one_to_one :
    (crmDB1.add_mapping "X" "Other" "L2" "divB" "B" "region" "US" none =
      (.error (.integrityError "UNIQUE constraint failed: mappings"), crmDB1)) ∧
    (crmDB1.add_mapping "Y" "Other" "L2" "divA" "A" "region" "US" none =
      (.error (.integrityError "UNIQUE constraint failed: mappings"), crmDB1)) :=
  ⟨rfl, rfl⟩

/-! ### C3: item replacement is exact and order-preserving -/

/-- Reading a division list unfolds to the junction-table join. -/
theorem get_list_items_division_eq (db : DB) (lid : Nat) (L : ListRow)
    (h : db.get_list lid = some L) (ht : L.type = "division") :
    db.get_list_items lid =
      (db.list_divisions.filter (fun ld => ld.list_id = lid)).filterMap
        (fun ld => (db.divisions.find? (fun d => Sum.inl d.id = ld.division_id)).map
          Sum.inl) := by
  unfold DB.get_list_items
  rw [h]
  simp [ht]

/-- Division-list branch: replacing a division list's items with
`new_ids` (each of which resolves in the `divisions` cache) succeeds,
and reading the list back returns exactly the new items — each resolved
to its full cached division row — in exactly the order of `new_ids`: no
old item survives, nothing is reordered, and the result has one entry
per new id. -/
theorem updateListItems_then_get (db : DB) (list_id : Nat) (new_ids : List Nat)
    (L : ListRow) (hL : db.get_list list_id = some L) (htype : L.type = "division")
    (hne : new_ids ≠ [])
    (hres : ∀ i ∈ new_ids, (db.divisions.find? (fun d => d.id = i)).isSome) :
    (db.update_list_items list_id (new_ids.map Sum.inl)).1 = .ok () ∧
    (db.update_list_items list_id (new_ids.map Sum.inl)).2.get_list_items list_id =
      new_ids.filterMap (fun i => (db.divisions.find? (fun d => d.id = i)).map Sum.inl) ∧
    ((db.update_list_items list_id (new_ids.map Sum.inl)).2.get_list_items list_id).length =
      new_ids.length := by
  have hne' : ¬ (new_ids.map Sum.inl = ([] : List ItemId)) := by
    simpa using hne
  have hrun : db.update_list_items list_id (new_ids.map Sum.inl) =
      (.ok (), { db with list_divisions :=
        db.list_divisions.filter (fun ld => ¬ ld.list_id = list_id) ++
          (new_ids.map Sum.inl).map (fun i => ⟨list_id, i⟩) }) := by
    simp [DB.update_list_items, hne', hL, htype]
  have hsnd : (db.update_list_items list_id (new_ids.map Sum.inl)).2 =
      { db with list_divisions :=
        db.list_divisions.filter (fun ld => ¬ ld.list_id = list_id) ++
          (new_ids.map Sum.inl).map (fun i => ⟨list_id, i⟩) } := by
    rw [hrun]
  have hget2 : ({ db with list_divisions :=
      db.list_divisions.filter (fun ld => ¬ ld.list_id = list_id) ++
        (new_ids.map Sum.inl).map (fun i => ⟨list_id, i⟩) } : DB).get_list
      list_id = some L := hL
  have hfilter : (db.list_divisions.filter (fun ld => ¬ ld.list_id = list_id) ++
      (new_ids.map Sum.inl).map (fun i => (⟨list_id, i⟩ : ListDivisionRow))).filter
        (fun ld => ld.list_id = list_id) =
      new_ids.map (fun i => (⟨list_id, Sum.inl i⟩ : ListDivisionRow)) := by
    rw [List.filter_append, List.filter_filter,
      List.filter_eq_nil_iff.mpr (by
        intro a _
        by_cases h : a.list_id = list_id <;> simp [h]),
      List.map_map,
      List.filter_eq_self.mpr (by
        intro a ha
        rcases List.mem_map.mp ha with ⟨i, _, rfl⟩
        simp),
      List.nil_append]
    rfl
  have key : ({ db with list_divisions :=
      db.list_divisions.filter (fun ld => ¬ ld.list_id = list_id) ++
        (new_ids.map Sum.inl).map (fun i => ⟨list_id, i⟩) } : DB).get_list_items
      list_id =
      new_ids.filterMap (fun i => (db.divisions.find? (fun d => d.id = i)).map Sum.inl) := by
    rw [get_list_items_division_eq _ _ L hget2 htype]
    show ((db.list_divisions.filter (fun ld => ¬ ld.list_id = list_id) ++
      (new_ids.map Sum.inl).map (fun i => (⟨list_id, i⟩ : ListDivisionRow))).filter
        (fun ld => ld.list_id = list_id)).filterMap
        (fun ld => (db.divisions.find? (fun d => Sum.inl d.id = ld.division_id)).map
          Sum.inl) = _
    rw [hfilter, List.filterMap_map]
    apply List.filterMap_congr
    intro i _
    simp
  refine ⟨by rw [hrun], ?_, ?_⟩
  · rw [hsnd, key]
  · rw [hsnd, key]
    exact List.filterMap_length_eq_length.mpr (by
      intro i hi
      simpa using hres i hi)

/-- Concrete database for the **C3** witness: four cached divisions and
one division list holding items `[1, 2, 3]`. -/
def dbItems : DB :=
  { DB.empty with
    divisions := [⟨1, "d1", "D1", "region", "US", "g"⟩,
                  ⟨2, "d2", "D2", "region", "US", "g"⟩,
                  ⟨3, "d3", "D3", "region", "US", "g"⟩,
                  ⟨4, "d4", "D4", "region", "US", "g"⟩],
    lists := [⟨1, "West", "division", "", "West|division"⟩],
    list_divisions := [⟨1, Sum.inl 1⟩, ⟨1, Sum.inl 2⟩, ⟨1, Sum.inl 3⟩] }

/-- Reading a client list (any non-division type) unfolds to the bare
`system_id` projection of the junction table — no record resolution. -/
theorem get_list_items_client_eq (db : DB) (lid : Nat) (L : ListRow)
    (h : db.get_list lid = some L) (ht : ¬ L.type = "division") :
    db.get_list_items lid =
      (db.list_clients.filter (fun lc => lc.list_id = lid)).map
        (fun lc => Sum.inr lc.system_id) := by
  unfold DB.get_list_items
  rw [h]
  simp [ht]

/-- Client-list analogue of `updateListItems_then_get`: replacement is
exact and order-preserving, but the read-back returns the bare stored
`system_id` values. -/
theorem updateListItems_client_then_get (db : DB) (list_id : Nat)
    (new_ids : List String) (L : ListRow) (hL : db.get_list list_id = some L)
    (htype : L.type = "client") (hne : new_ids ≠ []) :
    (db.update_list_items list_id (new_ids.map Sum.inr)).1 = .ok () ∧
    (db.update_list_items list_id (new_ids.map Sum.inr)).2.get_list_items list_id =
      new_ids.map (fun i => Sum.inr (Sum.inr i)) := by
  have hne' : ¬ (new_ids.map Sum.inr = ([] : List ItemId)) := by
    simpa using hne
  have hnd : ¬ (L.type = "division") := by
    simp [htype]
  have hrun : db.update_list_items list_id (new_ids.map Sum.inr) =
      (.ok (), { db with list_clients :=
        db.list_clients.filter (fun lc => ¬ lc.list_id = list_id) ++
          (new_ids.map Sum.inr).map (fun i => ⟨list_id, i⟩) }) := by
    simp [DB.update_list_items, hne', hL, hnd]
  have hsnd : (db.update_list_items list_id (new_ids.map Sum.inr)).2 =
      { db with list_clients :=
        db.list_clients.filter (fun lc => ¬ lc.list_id = list_id) ++
          (new_ids.map Sum.inr).map (fun i => ⟨list_id, i⟩) } := by
    rw [hrun]
  have hget2 : ({ db with list_clients :=
      db.list_clients.filter (fun lc => ¬ lc.list_id = list_id) ++
        (new_ids.map Sum.inr).map (fun i => ⟨list_id, i⟩) } : DB).get_list
      list_id = some L := hL
  have hfilter : (db.list_clients.filter (fun lc => ¬ lc.list_id = list_id) ++
      (new_ids.map Sum.inr).map (fun i => (⟨list_id, i⟩ : ListClientRow))).filter
        (fun lc => lc.list_id = list_id) =
      new_ids.map (fun i => (⟨list_id, Sum.inr i⟩ : ListClientRow)) := by
    rw [List.filter_append, List.filter_filter,
      List.filter_eq_nil_iff.mpr (by
        intro a _
        by_cases h : a.list_id = list_id <;> simp [h]),
      List.map_map,
      List.filter_eq_self.mpr (by
        intro a ha
        rcases List.mem_map.mp ha with ⟨i, _, rfl⟩
        simp),
      List.nil_append]
    rfl
  have key : ({ db with list_clients :=
      db.list_clients.filter (fun lc => ¬ lc.list_id = list_id) ++
        (new_ids.map Sum.inr).map (fun i => ⟨list_id, i⟩) } : DB).get_list_items
      list_id = new_ids.map (fun i => Sum.inr (Sum.inr i)) := by
    rw [get_list_items_client_eq _ _ L hget2 hnd]
    show ((db.list_clients.filter (fun lc => ¬ lc.list_id = list_id) ++
      (new_ids.map Sum.inr).map (fun i => (⟨list_id, i⟩ : ListClientRow))).filter
        (fun lc => lc.list_id = list_id)).map (fun lc => Sum.inr lc.system_id) = _
    rw [hfilter, List.map_map]
    rfl
  exact ⟨by rw [hrun], by rw [hsnd, key]⟩

/-- Concrete client list: one stored item `CRM-1`. -/
def dbClients : DB :=
  { DB.empty with
    lists := [⟨1, "Clients", "client", "", "Clients|client"⟩],
    list_clients := [⟨1, Sum.inr "CRM-1"⟩] }

/-- **C3** (counterexample): for a client list, replacing the items and
reading back yields the bare `system_id` strings `CRM-2`, `CRM-3` — the
storage never resolves them to client-metadata records (account name,
admin level, geometry); per the code comment in `get_list_items`, "CRM
client data loaded from clients.json separately".  So the claim's
promise that items are resolved to full client-metadata records fails
for client lists. -/
theorem clientListItems_return_bare_ids :
    (dbClients.update_list_items 1 (["CRM-2", "CRM-3"].map Sum.inr)).2.get_list_items 1 =
      [Sum.inr (Sum.inr "CRM-2"), Sum.inr (Sum.inr "CRM-3")] := by
  rfl

/-- **C3** (amended): replacing a list's items then reading the list
back returns exactly the new items in exactly the new order — never a
mix of old and new, never a permutation — for both list types; division
items come back resolved to their full cached division rows, while
client items come back as the bare `system_id` strings (no
client-metadata resolution happens in this storage). -/
theorem updateListItems_exact_replacement :
    (∀ (db : DB) (list_id : Nat) (new_ids : List Nat) (L : ListRow),
      db.get_list list_id = some L → L.type = "division" → new_ids ≠ [] →
      (∀ i ∈ new_ids, (db.divisions.find? (fun d => d.id = i)).isSome) →
      (db.update_list_items list_id (new_ids.map Sum.inl)).1 = .ok () ∧
      (db.update_list_items list_id (new_ids.map Sum.inl)).2.get_list_items list_id =
        new_ids.filterMap
          (fun i => (db.divisions.find? (fun d => d.id = i)).map Sum.inl) ∧
      ((db.update_list_items list_id (new_ids.map Sum.inl)).2.get_list_items
        list_id).length = new_ids.length) ∧
    (∀ (db : DB) (list_id : Nat) (new_ids : List String) (L : ListRow),
      db.get_list list_id = some L → L.type = "client" → new_ids ≠ [] →
      (db.update_list_items list_id (new_ids.map Sum.inr)).1 = .ok () ∧
      (db.update_list_items list_id (new_ids.map Sum.inr)).2.get_list_items list_id =
        new_ids.map (fun i => Sum.inr (Sum.inr i))) :=
  ⟨fun db list_id new_ids L hL htype hne hres =>
    updateListItems_then_get db list_id new_ids L hL htype hne hres,
   fun db list_id new_ids L hL htype hne =>
    updateListItems_client_then_get db list_id new_ids L hL htype hne⟩

/-- Witness for the amended **C3**: the division list `[1, 2, 3]`
replaced by `[1, 4]` reads back as the two resolved division rows in
order, and the client list `[CRM-1]` replaced by `[CRM-2, CRM-3]` reads
back as exactly those two bare ids in order. -/
theorem updateListItems_exact_replacement_witness :
    ((dbItems.update_list_items 1 ([1, 4].map Sum.inl)).1 = .ok () ∧
     (dbItems.update_list_items 1 ([1, 4].map Sum.inl)).2.get_list_items 1 =
       [1, 4].filterMap
         (fun i => (dbItems.divisions.find? (fun d => d.id = i)).map Sum.inl) ∧
     ((dbItems.update_list_items 1 ([1, 4].map Sum.inl)).2.get_list_items 1).length =
       ([1, 4] : List Nat).length) ∧
    ((dbClients.update_list_items 1 (["CRM-2", "CRM-3"].map Sum.inr)).1 = .ok () ∧
     (dbClients.update_list_items 1 (["CRM-2", "CRM-3"].map Sum.inr)).2.get_list_items 1 =
       ["CRM-2", "CRM-3"].map (fun i => Sum.inr (Sum.inr i))) :=
  ⟨updateListItems_exact_replacement.1 dbItems 1 [1, 4]
      ⟨1, "West", "division", "", "West|division"⟩ (by decide) rfl (by decide) (by decide),
   updateListItems_exact_replacement.2 dbClients 1 ["CRM-2", "CRM-3"]
      ⟨1, "Clients", "client", "", "Clients|client"⟩ (by decide) rfl (by decide)⟩

/-! ### C8: failure handling of the query engine -/

/-- **C8** (counterexample): a failing dataset and a successful empty
dataset produce the *same* return value (`[]`) from `get_countries`: the
exception is caught and only displayed via `st.error`, so the caller
cannot distinguish a query error from an empty result — contrary to the
claim that an explicit, distinguishable query-error result is
returned. -/
theorem queryError_indistinguishable_from_empty :
    get_countries (.error "IO Error: unable to connect") = get_countries (.ok []) :=
  rfl

/-- **C8** (amended): every query operation catches the dataset failure
(the functions are total, so no raw exception escapes) but maps it to
the empty result, which coincides with a successful empty query. -/
theorem queryFailure_swallowed_to_empty (e country parent : String)
    (ids : List String) :
    get_countries (.error e) = [] ∧
    get_subtypes (.error e) country = [] ∧
    get_top_level_divisions (.error e) country = [] ∧
    get_child_divisions (.error e) parent = [] ∧
    get_all_divisions_by_filters (.error e) country ids = [] := by
  refine ⟨rfl, rfl, rfl, rfl, ?_⟩
  cases h : ids.getLast? with
  | none => simp [get_all_divisions_by_filters, h, get_top_level_divisions]
  | some last => simp [get_all_divisions_by_filters, h]

/-! ### C9: per-session selection state -/

/-- Two-row dataset for the session-state counterexample: `B` is a land
child of top-level `A`. -/
def dsGeo : Dataset := .ok
  [⟨"A", "Aland", some "region", some "US", none, "land"⟩,
   ⟨"B", "Bland", some "county", some "US", some "A", "land"⟩]

/-- An engine session on `dsGeo` with country selected, empty path. -/
def engine1 : Engine := ⟨dsGeo, some "US", []⟩

/-- The same engine after `add_to_path` selected division `A`. -/
def engine2 : Engine := ⟨dsGeo, some "US", [⟨"A", "Aland", some "region", some "US", none⟩]⟩

/-- **C9** (counterexample): `query_at_current_level` is a core query
operation with no explicit arguments, yet on two engines with identical
dataset contents it returns different results depending on the hidden
per-session `selection_path` — so not every core query operation is a
pure function of its explicit arguments plus dataset contents. -/
theorem queryAtCurrentLevel_reads_session_state :
    engine1.parquet = engine2.parquet ∧
    engine1.query_at_current_level ≠ engine2.query_at_current_level :=
  ⟨rfl, by decide⟩

/-- **C9** (amended): the argument-taking query operations of the engine
are pure functions of their explicit arguments plus the dataset
contents: any two engine sessions over the same dataset — whatever their
`country` / `selection_path` state — agree on all of them.  Only the
convenience wrappers (`query_at_current_level`) read session state. -/
theorem explicit_queries_ignore_session_state (e1 e2 : Engine)
    (h : e1.parquet = e2.parquet) :
    e1.get_countries = e2.get_countries ∧
    (∀ c, e1.get_subtypes c = e2.get_subtypes c) ∧
    (∀ c, e1.get_top_level_divisions c = e2.get_top_level_divisions c) ∧
    (∀ p, e1.get_child_divisions p = e2.get_child_divisions p) ∧
    (∀ c ids, e1.get_all_divisions_by_filters c ids =
      e2.get_all_divisions_by_filters c ids) := by
  refine ⟨?_, ?_, ?_, ?_, ?_⟩ <;>
    simp [Engine.get_countries, Engine.get_subtypes, Engine.get_top_level_divisions,
      Engine.get_child_divisions, Engine.get_all_divisions_by_filters, h]

/-- Witness for the amended **C9**: the two concrete sessions of the
counterexample, which differ in selection state, agree on every
argument-taking query. -/
theorem explicit_queries_ignore_session_state_witness :
    engine1.get_countries = engine2.get_countries ∧
    engine1.get_subtypes "US" = engine2.get_subtypes "US" ∧
    engine1.get_top_level_divisions "US" = engine2.get_top_level_divisions "US" ∧
    engine1.get_child_divisions "A" = engine2.get_child_divisions "A" ∧
    engine1.get_all_divisions_by_filters "US" ["A"] =
      engine2.get_all_divisions_by_filters "US" ["A"] :=
  ⟨(explicit_queries_ignore_session_state engine1 engine2 rfl).1,
   (explicit_queries_ignore_session_state engine1 engine2 rfl).2.1 "US",
   (explicit_queries_ignore_session_state engine1 engine2 rfl).2.2.1 "US",
   (explicit_queries_ignore_session_state engine1 engine2 rfl).2.2.2.1 "A",
   (explicit_queries_ignore_session_state engine1 engine2 rfl).2.2.2.2 "US" ["A"]⟩

/-! ### C2: descendant expansion over the external hierarchy -/

/-- Three-generation dataset: `C` is a child of `B`, itself a child of
top-level `A`; all land rows of country `US`. -/
def dsThree : Dataset := .ok
  [⟨"A", "Aland", some "country", some "US", none, "land"⟩,
   ⟨"B", "Bland", some "region", some "US", some "A", "land"⟩,
   ⟨"C", "Cland", some "county", some "US", some "B", "land"⟩]

/-- **C2** (counterexample): querying the descendants of `A` (selection
path `["A"]`, any depth bound ≥ 2 intended) returns only the direct
child `B`; the depth-2 descendant `C` (a child of `B`) is absent, and
the returned rows carry no depth column at all — so the operation does
not return all descendants within `d` levels annotated with depth. -/
theorem descendants_query_misses_grandchildren :
    "B" ∈ (get_all_divisions_by_filters dsThree "US" ["A"]).map
      (fun r => r.division_id) ∧
    "C" ∉ (get_all_divisions_by_filters dsThree "US" ["A"]).map
      (fun r => r.division_id) := by
  decide

/-- Sorting by name does not change membership. -/
theorem mem_sortByName (r : ResultRow) (l : List ResultRow) :
    r ∈ sortByName l ↔ r ∈ l :=
  (List.perm_insertionSort (fun a b : ResultRow => a.name ≤ b.name) l).mem_iff

/-- **C2** (amended): for a nonempty selection path, the operation
returns exactly the land rows whose parent is the *last* id of the path:
every returned row is a direct (depth-1) child of that division, every
such land row is returned, and no deeper descendant or depth annotation
is produced. -/
theorem getAllDivisionsByFilters_direct_children_only (rows : List ParquetRow)
    (country : String) (ids : List String) (last : String)
    (hlast : ids.getLast? = some last) :
    (∀ r ∈ get_all_divisions_by_filters (.ok rows) country ids,
      r.parent_division_id = some last) ∧
    (∀ row ∈ rows, row.parent_division_id = some last → row.cls = "land" →
      row.toResult ∈ get_all_divisions_by_filters (.ok rows) country ids) := by
  have hres : get_all_divisions_by_filters (.ok rows) country ids =
      sortByName ((rows.filter (fun row =>
        row.parent_division_id = some last ∧ row.cls = "land")).map
          ParquetRow.toResult) := by
    unfold get_all_divisions_by_filters
    rw [hlast]
  constructor
  · intro r hr
    rw [hres, mem_sortByName] at hr
    rcases List.mem_map.mp hr with ⟨row, hrow, rfl⟩
    have hcond : row.parent_division_id = some last ∧ row.cls = "land" := by
      simpa using (List.mem_filter.mp hrow).2
    simpa [ParquetRow.toResult] using hcond.1
  · intro row hrow hp hc
    rw [hres, mem_sortByName]
    exact List.mem_map_of_mem _ (List.mem_filter.mpr ⟨hrow, by simp [hp, hc]⟩)

/-- Witness for the amended **C2**: on the three-generation dataset with
path `["A"]`, both directions hold. -/
theorem getAllDivisionsByFilters_direct_children_only_witness :
    (∀ r ∈ get_all_divisions_by_filters dsThree "US" ["A"],
      r.parent_division_id = some "A") ∧
    (∀ row ∈ [⟨"A", "Aland", some "country", some "US", none, "land"⟩,
              ⟨"B", "Bland", some "region", some "US", some "A", "land"⟩,
              (⟨"C", "Cland", some "county", some "US", some "B", "land"⟩ : ParquetRow)],
      row.parent_division_id = some "A" → row.cls = "land" →
      row.toResult ∈ get_all_divisions_by_filters dsThree "US" ["A"]) :=
  getAllDivisionsByFilters_direct_children_only
    [⟨"A", "Aland", some "country", some "US", none, "land"⟩,
     ⟨"B", "Bland", some "region", some "US", some "A", "land"⟩,
     ⟨"C", "Cland", some "county", some "US", some "B", "land"⟩]
    "US" ["A"] "A" rfl

/-! ### C5: organizational descendant traversal -/

/-- No node is reachable by a path of zero edges. -/
theorem not_reachesIn_zero (rels : List RelationshipRow) (t : String) (p x : Nat) :
    ¬ ReachesIn rels t p x 0 := fun h => nomatch h

/-- Membership in the shared `relationships` scan. -/
theorem mem_orgChildren (rels : List RelationshipRow) (t : String) (p x : Nat) :
    x ∈ DB.orgChildren rels t p ↔
      ∃ r, r ∈ rels ∧ r.parent_division_id = p ∧ r.relationship_type = t ∧
        r.child_division_id = x := by
  unfold DB.orgChildren
  simp only [List.mem_map, List.mem_filter]
  constructor
  · rintro ⟨r, ⟨hr, hcond⟩, rfl⟩
    have : r.parent_division_id = p ∧ r.relationship_type = t := by simpa using hcond
    exact ⟨r, hr, this.1, this.2, rfl⟩
  · rintro ⟨r, hr, hp, ht, rfl⟩
    exact ⟨r, ⟨hr, by simp [hp, ht]⟩, rfl⟩

/-- One-edge reachability is exactly membership among direct children. -/
theorem reachesIn_one_iff (rels : List RelationshipRow) (t : String) (p x : Nat) :
    ReachesIn rels t p x 1 ↔ x ∈ DB.orgChildren rels t p := by
  constructor
  · intro h
    cases h with
    | direct hr hp ht => exact (mem_orgChildren rels t p _).mpr ⟨_, hr, hp, ht, rfl⟩
    | step hq hr hp ht => exact absurd hq (not_reachesIn_zero rels t p _)
  · intro h
    rcases (mem_orgChildren rels t p x).mp h with ⟨r, hr, hp, ht, rfl⟩
    exact ReachesIn.direct hr hp ht

/-- Paths of length at least two decompose into a path and one edge. -/
theorem reachesIn_succ_iff (rels : List RelationshipRow) (t : String) (p x n : Nat) :
    ReachesIn rels t p x (n + 2) ↔
      ∃ q, ReachesIn rels t p q (n + 1) ∧ x ∈ DB.orgChildren rels t q := by
  constructor
  · intro h
    cases h with
    | step hq hr hp ht =>
        exact ⟨_, hq, (mem_orgChildren rels t _ _).mpr ⟨_, hr, hp, ht, rfl⟩⟩
  · rintro ⟨q, hq, hx⟩
    rcases (mem_orgChildren rels t q x).mp hx with ⟨r, hr, hp, ht, rfl⟩
    exact ReachesIn.step hq hr hp ht

/-- The conjunction of the `od.depth < depth_limit` guards crossed by
the first `n` recursive steps of the CTE. -/
def cteGate (limit : Int) : Nat → Prop
  | 0 => True
  | n + 1 => cteGate limit n ∧ ((n : Int) + 1 < limit)

/-- The accumulated guard collapses to a single comparison. -/
theorem cteGate_iff (limit : Int) (n : Nat) :
    cteGate limit n ↔ (n = 0 ∨ (n : Int) < limit) := by
  induction n with
  | zero => simp [cteGate]
  | succ n ih =>
      constructor
      · rintro ⟨hg, hlt⟩
        right
        push_cast
        omega
      · intro h
        have hlt : ((n : Int) + 1) < limit := by
          rcases h with h | h
          · exact absurd h (Nat.succ_ne_zero n)
          · push_cast at h
            omega
        exact ⟨ih.mpr (Or.inr (by omega)), hlt⟩

/-- Characterization of the rows of generation `n` of the recursive
CTE: depth is `n + 1`, the node is reachable by a path of exactly
`n + 1` type-`t` edges, and every crossed depth guard held. -/
theorem mem_cteFrontier (rels : List RelationshipRow) (t : String) (limit : Int)
    (root : Nat) :
    ∀ (n : Nat) (x : Nat) (d : Int), ((x, d) ∈ DB.cteFrontier rels t limit root n ↔
      (d = (n : Int) + 1 ∧ ReachesIn rels t root x (n + 1) ∧ cteGate limit n)) := by
  intro n
  induction n with
  | zero =>
      intro x d
      simp only [DB.cteFrontier, List.mem_map, cteGate, Nat.cast_zero, zero_add]
      constructor
      · rintro ⟨c, hc, heq⟩
        obtain ⟨rfl, rfl⟩ : c = x ∧ (1 : Int) = d := by
          constructor <;> [exact congrArg Prod.fst heq; exact congrArg Prod.snd heq]
        exact ⟨rfl, (reachesIn_one_iff _ _ _ _).mpr hc, trivial⟩
      · rintro ⟨rfl, hreach, _⟩
        exact ⟨x, (reachesIn_one_iff rels t root x).mp hreach, rfl⟩
  | succ n ih =>
      intro x d
      simp only [DB.cteFrontier, List.mem_flatMap, List.mem_filter, List.mem_map]
      constructor
      · rintro ⟨⟨q, dq⟩, hodf, c, hc, heq⟩
        obtain ⟨rfl, rfl⟩ : c = x ∧ dq + 1 = d := by
          constructor <;> [exact congrArg Prod.fst heq; exact congrArg Prod.snd heq]
        have hod : (q, dq) ∈ DB.cteFrontier rels t limit root n ∧ dq < limit := by
          constructor
          · exact hodf.1
          · simpa using hodf.2
        obtain ⟨hdq, hreach, hgate⟩ := (ih q dq).mp hod.1
        subst hdq
        refine ⟨by push_cast; ring, ?_, ?_⟩
        · exact (reachesIn_succ_iff _ _ _ _ _).mpr ⟨q, hreach, hc⟩
        · exact ⟨hgate, hod.2⟩
      · rintro ⟨rfl, hreach, hgate, hlt⟩
        rcases (reachesIn_succ_iff rels t root x n).mp hreach with ⟨q, hq, hc⟩
        refine ⟨(q, (n : Int) + 1), ⟨?_, ?_⟩, x, hc, ?_⟩
        · exact (ih q ((n : Int) + 1)).mpr ⟨rfl, hq, hgate⟩
        · simpa using hlt
        · show ((x, (n : Int) + 1 + 1) : Nat × Int) = (x, (n.succ : Int) + 1)
          push_cast
          ring_nf

/-- Membership characterization of `get_organizational_descendants`: a
node is returned iff it is reachable from the root by a path of `k`
edges of the requested type with `1 ≤ k ≤ max 1 depth_limit` (a
requested bound below 1 still yields the direct children, because the
CTE base case is unguarded). -/
theorem mem_getOrgDescendants (db : DB) (root : Nat) (t : String) (md : Option Int)
    (x : Nat) :
    x ∈ db.get_organizational_descendants root t md ↔
      ∃ k : Nat, 1 ≤ k ∧ (k : Int) ≤ max 1 (md.getD 999) ∧
        ReachesIn db.relationships t root x k := by
  have hM1 : (1 : Int) ≤ max 1 (md.getD 999) := le_max_left _ _
  have hML : md.getD 999 ≤ max 1 (md.getD 999) := le_max_right _ _
  have hMc : max 1 (md.getD 999) = 1 ∨ max 1 (md.getD 999) = md.getD 999 :=
    max_choice _ _
  simp only [DB.get_organizational_descendants, List.mem_dedup, List.mem_map,
    List.mem_flatMap, List.mem_range]
  constructor
  · rintro ⟨⟨y, d⟩, ⟨n, hn, hmem⟩, rfl⟩
    obtain ⟨hd, hreach, hgate⟩ := (mem_cteFrontier db.relationships t _ root n y d).mp hmem
    rcases (cteGate_iff _ n).mp hgate with h0 | hlt
    · subst h0
      exact ⟨1, le_refl 1, by exact_mod_cast hM1, hreach⟩
    · refine ⟨n + 1, by omega, ?_, hreach⟩
      have : ((n : Int) + 1) ≤ md.getD 999 := by omega
      push_cast
      omega
  · rintro ⟨k, hk1, hkM, hreach⟩
    obtain ⟨n, rfl⟩ : ∃ n, k = n + 1 := ⟨k - 1, by omega⟩
    refine ⟨(x, (n : Int) + 1), ⟨n, ?_, ?_⟩, rfl⟩
    · rcases hMc with hM | hM <;> rw [hM] at hkM <;> push_cast at hkM <;> omega
    · refine (mem_cteFrontier db.relationships t _ root n x _).mpr
        ⟨rfl, hreach, (cteGate_iff _ n).mpr ?_⟩
      rcases hMc with hM | hM <;> rw [hM] at hkM <;> push_cast at hkM <;> omega

/-- **C5** (amended): for every relationship graph — cyclic or not —
root, type and requested bound, the traversal (a total function, hence
terminating) returns a duplicate-free list containing exactly the ids
reachable from the root along edges of the given type by a path of
length between 1 and the effective depth limit `max 1 depth_limit`
(999 when no bound is requested; a bound below 1 still yields the
direct children). -/
theorem getOrgDescendants_bounded_dedup (db : DB) (root : Nat) (t : String)
    (md : Option Int) (x : Nat) :
    (db.get_organizational_descendants root t md).Nodup ∧
    (x ∈ db.get_organizational_descendants root t md ↔
      ∃ k : Nat, 1 ≤ k ∧ (k : Int) ≤ max 1 (md.getD 999) ∧
        ReachesIn db.relationships t root x k) :=
  ⟨by simp only [DB.get_organizational_descendants]; exact List.nodup_dedup _,
   mem_getOrgDescendants db root t md x⟩

/-- Relationship table with a single `reports_to` edge `1 → 2`. -/
def dbRel : DB := { DB.empty with relationships := [⟨1, 2, "reports_to"⟩] }

/-- **C5** (counterexample): with the requested depth bound 0, the
traversal still returns division 2 — a node whose only path from the
root has length 1 > 0 — because the CTE base case (direct children) is
emitted before the depth guard applies; so the traversal does not
restrict itself to the requested bound for bounds below 1. -/
theorem orgDescendants_bound_zero_still_returns_children :
    2 ∈ dbRel.get_organizational_descendants 1 "reports_to" (some 0) ∧
    ¬ ReachesIn dbRel.relationships "reports_to" 1 2 0 :=
  ⟨by decide, not_reachesIn_zero dbRel.relationships "reports_to" 1 2⟩

/-- Relationship table with the cycle `1 → 2 → 1`. -/
def dbCycle : DB :=
  { DB.empty with relationships := [⟨1, 2, "reports_to"⟩, ⟨2, 1, "reports_to"⟩] }

/-- Dossier evidence for the cycle scenario of §8: on `1 → 2 → 1` the
traversal with bound 3 terminates with the finite de-duplicated result
`[1, 2]`. -/
theorem orgDescendants_cycle_terminates :
    dbCycle.get_organizational_descendants 1 "reports_to" (some 3) = [1, 2] ∧
    (dbCycle.get_organizational_descendants 1 "reports_to" (some 3)).Nodup := by
  decide

end Overture
